import Mathlib

/-!
Verification of the encrypted credential store of PocketPaw
(`src/pocketpaw/credentials.py`, class `CredentialStore`).

The embedding models Python semantics explicitly:

* A Python `dict[str, str]` is an insertion-ordered association list
  (`Dict`).  `d.get(k)`, `d[k] = v`, `del d[k]` and `dict(d)` become
  `Dict.getVal`, `Dict.setVal`, `Dict.delVal` and copying.
* Python objects are mutable and aliased, so the store state carries a
  heap of dict objects addressed by `Nat` references; `self._cache` is
  `Option Nat` (a nullable reference), exactly as `_load` returns the
  cache object itself rather than a copy.
* Fernet authenticated encryption together with the JSON round trip is
  modelled symbolically: a ciphertext is either a well-formed token
  carrying the key it was produced with and the encoded mapping, or
  arbitrary garbage bytes.  Decryption followed by `json.loads` succeeds
  exactly on a token produced with the same key (Fernet is
  authenticated, so a wrong key or tampered bytes raise `InvalidToken`;
  `json.dumps`/`json.loads` round-trips string-to-string mappings).
* PBKDF2 is modelled symbolically by a constructor recording the
  algorithm, output length, iteration count, salt and password, which is
  all the claims about key derivation refer to; the base64-url encoding
  step is a second constructor.
* The environment (`Env`) fixes the non-deterministic inputs of one
  call: machine-id file contents, hostname, login, the bytes
  `os.urandom(16)` would return, and whether the `write_bytes` call on
  the secrets file succeeds (failure models a full disk or read-only
  filesystem and raises `OSError`, which `_save` does not catch).
* Operations return their result paired with the post state; fallible
  operations return `PyOutcome.raised` when the underlying write raises,
  with the state as it is at the moment the exception propagates.
-/

/-- A Python `dict[str, str]`: insertion-ordered association list. -/
abbrev Dict := List (String × String)

/-- Python `d.get(k)`: value of the first entry with key `k`, if any. -/
def Dict.getVal : Dict → String → Option String
  | [], _ => none
  | (k, v) :: rest, key => if k = key then some v else Dict.getVal rest key

/-- Python `d[k] = v`: replace the value of an existing key in place, else append. -/
def Dict.setVal : Dict → String → String → Dict
  | [], key, val => [(key, val)]
  | (k, v) :: rest, key, val =>
      if k = key then (k, val) :: rest else (k, v) :: Dict.setVal rest key val

/-- Python `del d[k]`: drop the entry with key `k` (the first match). -/
def Dict.delVal : Dict → String → Dict
  | [], _ => []
  | (k, v) :: rest, key => if k = key then rest else (k, v) :: Dict.delVal rest key

/-- Python `k in d`. -/
def Dict.hasKey (d : Dict) (key : String) : Bool :=
  (Dict.getVal d key).isSome

/-- Keys are pairwise distinct, as in every Python dict. -/
def Dict.noDupKeys : Dict → Bool
  | [] => true
  | (k, _) :: rest => !Dict.hasKey rest k && Dict.noDupKeys rest

/-- The raw 32-byte output of the key-derivation function, recorded
symbolically: algorithm PBKDF2-HMAC-SHA256 with the given output length,
iteration count, salt bytes and password bytes. -/
inductive RawKey
  | pbkdf2HmacSha256 (length : Nat) (iterations : Nat)
      (salt : List Nat) (password : String)
  deriving DecidableEq

/-- A Fernet key: the base64-url encoding of a raw derived key. -/
inductive FernetKey
  | b64url (raw : RawKey)
  deriving DecidableEq

/-- Contents of `secrets.enc`: either a Fernet token wrapping the JSON
encoding of a mapping (tagged with the key that produced it, since Fernet
is authenticated encryption), or garbage bytes. -/
inductive CipherBytes
  | token (key : FernetKey) (payload : Dict)
  | garbage (id : Nat)
  deriving DecidableEq

/-- Model of `fernet.decrypt(bytes)` followed by `json.loads`: succeeds exactly on
a token produced with the same key; a wrong key, tampered bytes or
garbage raise (`InvalidToken` or `json.JSONDecodeError`), modelled as
`none`. -/
def fernetDecryptJson (key : FernetKey) : CipherBytes → Option Dict
  | CipherBytes.token k payload => if k = key then some payload else none
  | CipherBytes.garbage _ => none

/-- Whether an operation returned normally or raised an exception. -/
inductive PyOutcome
  | ok
  | raised
  deriving DecidableEq

/-- The fixed environment of a call: file-system and OS inputs that the
store reads but does not control. -/
structure Env where
  /-- Stripped contents of `/etc/machine-id`, `none` when unreadable. -/
  etcMachineId : Option String
  /-- Stripped contents of `/var/lib/dbus/machine-id`, `none` when unreadable. -/
  dbusMachineId : Option String
  /-- `platform.node()`. -/
  hostname : String
  /-- `os.getlogin()` result, `none` when it raises `OSError`. -/
  login : Option String
  /-- `os.environ.get("USER")`. -/
  envUser : Option String
  /-- `os.environ.get("USERNAME")`. -/
  envUserName : Option String
  /-- The 16 bytes `os.urandom(16)` returns next. -/
  urandom : List Nat
  /-- Whether `write_bytes` on the secrets file succeeds. -/
  secretsWriteOk : Bool

/-- The observable state of one `CredentialStore` and its files.  `heap`
is the Python heap restricted to the dict objects the store touches;
`cache` is `self._cache`, a nullable reference into the heap. -/
structure StoreState where
  heap : List Dict
  cache : Option Nat
  /-- Contents of `secrets.enc`, `none` when the file does not exist. -/
  secretsFile : Option CipherBytes
  /-- Contents of `.salt`, `none` when the file does not exist. -/
  saltFile : Option (List Nat)
  deriving DecidableEq

/-- State after `CredentialStore.__init__`: paths are computed, no file is read or
written, the cache starts out `None`. -/
def StoreState.fresh : StoreState :=
  { heap := [], cache := none, secretsFile := none, saltFile := none }

/-- Dereference a dict object. -/
def StoreState.heapGet (st : StoreState) (r : Nat) : Dict :=
  st.heap.getD r []

/-- Overwrite a dict object in place. -/
def StoreState.heapSet (st : StoreState) (r : Nat) (d : Dict) : StoreState :=
  { st with heap := st.heap.set r d }

/-- Allocate a fresh dict object. -/
def StoreState.alloc (st : StoreState) (d : Dict) : Nat × StoreState :=
  (st.heap.length, { st with heap := st.heap ++ [d] })

/-- Allocate a fresh dict object and point `self._cache` at it, as every
branch of `_load` does. -/
def StoreState.allocCache (st : StoreState) (d : Dict) : Nat × StoreState :=
  (st.heap.length,
   { st with heap := st.heap ++ [d], cache := some st.heap.length })

/-- The cache reference, when set, points into the heap. -/
def StoreState.cacheOk (st : StoreState) : Bool :=
  match st.cache with
  | none => true
  | some r => r < st.heap.length

/-- Every dict object on the heap has pairwise distinct keys. -/
def StoreState.heapOk (st : StoreState) : Bool :=
  st.heap.all Dict.noDupKeys

/-- A well-formed token on disk encodes a genuine mapping (distinct
keys), as `json.dumps` of a Python dict always does. -/
def StoreState.diskOk (st : StoreState) : Bool :=
  match st.secretsFile with
  | some (CipherBytes.token _ d) => Dict.noDupKeys d
  | _ => true

/-- States reachable by the Python code. -/
def StoreState.wf (st : StoreState) : Bool :=
  st.cacheOk && st.heapOk && st.diskOk

/-- Step of `_get_machine_id` per candidate file: an unreadable or empty file is
skipped. -/
def machineIdCandidate : Option String → Option String
  | none => none
  | some mid => if mid = "" then none else some mid

/-- Source `CredentialStore._get_machine_id`: first non-empty readable
machine-id file, else the hostname. -/
def CredentialStore.getMachineId (env : Env) : String :=
  match machineIdCandidate env.etcMachineId with
  | some mid => mid
  | none =>
      match machineIdCandidate env.dbusMachineId with
      | some mid => mid
      | none => env.hostname

/-- The user part of the identity: `os.getlogin()`, falling back to the
`USER` / `USERNAME` environment variables, then the literal
`"pocketpaw"`. -/
def CredentialStore.userIdent (env : Env) : String :=
  match env.login with
  | some u => u
  | none => (env.envUser.getD (env.envUserName.getD "pocketpaw"))

/-- Source `CredentialStore._get_machine_identity`: machine id and user joined
with a pipe, UTF-8 encoded (strings here stand for their UTF-8 bytes). -/
def CredentialStore.getMachineIdentity (env : Env) : String :=
  String.intercalate "|" [CredentialStore.getMachineId env,
                          CredentialStore.userIdent env]

/-- Source `CredentialStore._get_or_create_salt`: an existing salt file of at
least 16 bytes contributes its first 16 bytes; otherwise 16 fresh random
bytes are written (overwriting the file) and returned. -/
def CredentialStore.getOrCreateSalt (env : Env) (st : StoreState) :
    List Nat × StoreState :=
  match st.saltFile with
  | some salt =>
      if 16 ≤ salt.length then (salt.take 16, st)
      else (env.urandom, { st with saltFile := some env.urandom })
  | none => (env.urandom, { st with saltFile := some env.urandom })

/-- Source `CredentialStore._derive_key`: PBKDF2-HMAC-SHA256, 32 bytes, 480000
iterations, over the machine identity with the persisted salt, then
base64-url-encoded. -/
def CredentialStore.deriveKey (env : Env) (st : StoreState) :
    FernetKey × StoreState :=
  let p := CredentialStore.getOrCreateSalt env st
  (FernetKey.b64url
     (RawKey.pbkdf2HmacSha256 32 480000 p.1
        (CredentialStore.getMachineIdentity env)),
   p.2)

/-- Source `CredentialStore._load`: return the cache object when present,
otherwise read and decrypt the secrets file.  An absent file, a
decryption failure or a decoding failure all yield an empty mapping (the
`except` clause catches every exception); the result dict becomes the
cache and is returned by reference. -/
def CredentialStore.load (env : Env) (st : StoreState) : Nat × StoreState :=
  match st.cache with
  | some r => (r, st)
  | none =>
      match st.secretsFile with
      | none => StoreState.allocCache st []
      | some bytes =>
          let p := CredentialStore.deriveKey env st
          match fernetDecryptJson p.1 bytes with
          | some d => StoreState.allocCache p.2 d
          | none => StoreState.allocCache p.2 []

/-- Source `CredentialStore._save`: derive the key, encrypt the JSON encoding of
the dict object `r`, write it to the secrets file.  When the write
raises, the exception propagates before `self._cache = data` runs; on
success the cache is pointed at `r`. -/
def CredentialStore.save (env : Env) (r : Nat) (st : StoreState) :
    PyOutcome × StoreState :=
  let p := CredentialStore.deriveKey env st
  if env.secretsWriteOk then
    (PyOutcome.ok,
     { p.2 with
         secretsFile := some (CipherBytes.token p.1 (StoreState.heapGet p.2 r)),
         cache := some r })
  else
    (PyOutcome.raised, p.2)

/-- Source `CredentialStore.get`: look the name up in the loaded mapping. -/
def CredentialStore.get (env : Env) (name : String) (st : StoreState) :
    Option String × StoreState :=
  let p := CredentialStore.load env st
  (Dict.getVal (StoreState.heapGet p.2 p.1) name, p.2)

/-- Source `CredentialStore.set`: `data = self._load(); data[name] = value;
self._save(data)` — note that `data` is the cache object itself, so the
in-place update mutates the cache before the save. -/
def CredentialStore.set (env : Env) (name value : String) (st : StoreState) :
    PyOutcome × StoreState :=
  let p := CredentialStore.load env st
  let st₂ := StoreState.heapSet p.2 p.1
      (Dict.setVal (StoreState.heapGet p.2 p.1) name value)
  CredentialStore.save env p.1 st₂

/-- Source `CredentialStore.delete`: remove the key from the cache object and
save, or do nothing when the key is absent. -/
def CredentialStore.delete (env : Env) (name : String) (st : StoreState) :
    PyOutcome × StoreState :=
  let p := CredentialStore.load env st
  if Dict.hasKey (StoreState.heapGet p.2 p.1) name then
    CredentialStore.save env p.1
      (StoreState.heapSet p.2 p.1
        (Dict.delVal (StoreState.heapGet p.2 p.1) name))
  else
    (PyOutcome.ok, p.2)

/-- Source `CredentialStore.get_all`: `dict(self._load())` — allocate a fresh
shallow copy of the cache object and return a reference to the copy. -/
def CredentialStore.getAll (env : Env) (st : StoreState) : Nat × StoreState :=
  let p := CredentialStore.load env st
  StoreState.alloc p.2 (StoreState.heapGet p.2 p.1)

/-- Source `CredentialStore.clear_cache`: `self._cache = None`. -/
def CredentialStore.clearCache (st : StoreState) : StoreState :=
  { st with cache := none }

/-- One caller-side mutation of a dict object: `d[k] = v` or `d.pop(k)`. -/
inductive DictMutation
  | ins (key value : String)
  | del (key : String)
  deriving DecidableEq

def applyMutation (d : Dict) : DictMutation → Dict
  | DictMutation.ins k v => Dict.setVal d k v
  | DictMutation.del k => Dict.delVal d k

/-- Perform a caller-side mutation on the dict object `r`. -/
def StoreState.mutateAt (st : StoreState) (r : Nat) (m : DictMutation) :
    StoreState :=
  StoreState.heapSet st r (applyMutation (StoreState.heapGet st r) m)

/-! Section: Dictionary lemmas -/

theorem Dict.getVal_setVal_self (d : Dict) (k v : String) :
    Dict.getVal (Dict.setVal d k v) k = some v := by
  induction d with
  | nil => simp [Dict.setVal, Dict.getVal]
  | cons hd tl ih =>
      obtain ⟨k₀, v₀⟩ := hd
      by_cases h : k₀ = k
      · simp [Dict.setVal, Dict.getVal, h]
      · simp [Dict.setVal, Dict.getVal, h, ih]

theorem Dict.getVal_setVal_ne (d : Dict) (k v m : String) (h : m ≠ k) :
    Dict.getVal (Dict.setVal d k v) m = Dict.getVal d m := by
  induction d with
  | nil => simp [Dict.setVal, Dict.getVal, Ne.symm h]
  | cons hd tl ih =>
      obtain ⟨k₀, v₀⟩ := hd
      by_cases hk : k₀ = k
      · subst hk
        simp [Dict.setVal, Dict.getVal, Ne.symm h]
      · by_cases hm : k₀ = m
        · subst hm
          simp [Dict.setVal, Dict.getVal, hk]
        · simp [Dict.setVal, Dict.getVal, hk, hm, ih]

theorem Dict.getVal_delVal_ne (d : Dict) (k m : String) (h : m ≠ k) :
    Dict.getVal (Dict.delVal d k) m = Dict.getVal d m := by
  induction d with
  | nil => simp [Dict.delVal]
  | cons hd tl ih =>
      obtain ⟨k₀, v₀⟩ := hd
      by_cases hk : k₀ = k
      · subst hk
        simp [Dict.delVal, Dict.getVal, Ne.symm h]
      · by_cases hm : k₀ = m
        · subst hm
          simp [Dict.delVal, Dict.getVal, hk]
        · simp [Dict.delVal, Dict.getVal, hk, hm, ih]

theorem Dict.getVal_eq_none_of_hasKey_false (d : Dict) (key : String)
    (h : Dict.hasKey d key = false) : Dict.getVal d key = none := by
  unfold Dict.hasKey at h
  exact Option.not_isSome_iff_eq_none.mp (by simp [h])

theorem Dict.getVal_delVal_self (d : Dict) (k : String)
    (h : Dict.noDupKeys d = true) : Dict.getVal (Dict.delVal d k) k = none := by
  induction d with
  | nil => simp [Dict.delVal, Dict.getVal]
  | cons hd tl ih =>
      obtain ⟨k₀, v₀⟩ := hd
      rw [Dict.noDupKeys, Bool.and_eq_true, Bool.not_eq_true'] at h
      by_cases hk : k₀ = k
      · subst hk
        simpa [Dict.delVal] using
          Dict.getVal_eq_none_of_hasKey_false tl k₀ h.1
      · simp [Dict.delVal, Dict.getVal, hk, ih h.2]

/-! Section: State-transition lemmas for the private helpers -/

theorem getOrCreateSalt_heap (env : Env) (st : StoreState) :
    ((CredentialStore.getOrCreateSalt env st).2).heap = st.heap := by
  unfold CredentialStore.getOrCreateSalt
  cases st.saltFile with
  | none => rfl
  | some s =>
      by_cases h : 16 ≤ s.length <;> simp [h]

theorem getOrCreateSalt_cache (env : Env) (st : StoreState) :
    ((CredentialStore.getOrCreateSalt env st).2).cache = st.cache := by
  unfold CredentialStore.getOrCreateSalt
  cases st.saltFile with
  | none => rfl
  | some s =>
      by_cases h : 16 ≤ s.length <;> simp [h]

theorem getOrCreateSalt_secretsFile (env : Env) (st : StoreState) :
    ((CredentialStore.getOrCreateSalt env st).2).secretsFile = st.secretsFile := by
  unfold CredentialStore.getOrCreateSalt
  cases st.saltFile with
  | none => rfl
  | some s =>
      by_cases h : 16 ≤ s.length <;> simp [h]

theorem getOrCreateSalt_stable (env : Env) (st st₂ : StoreState)
    (hr : env.urandom.length = 16)
    (h : st₂.saltFile = ((CredentialStore.getOrCreateSalt env st).2).saltFile) :
    (CredentialStore.getOrCreateSalt env st₂).1 =
      (CredentialStore.getOrCreateSalt env st).1 := by
  unfold CredentialStore.getOrCreateSalt at h ⊢
  cases hs : st.saltFile with
  | none =>
      simp [hs] at h
      simp [h, hr, List.take_of_length_le (le_of_eq hr)]
  | some s =>
      by_cases hl : 16 ≤ s.length
      · simp [hs, hl] at h
        simp [h, hs, hl]
      · simp [hs, hl] at h
        simp [h, hs, hl, hr, List.take_of_length_le (le_of_eq hr)]

theorem deriveKey_heap (env : Env) (st : StoreState) :
    ((CredentialStore.deriveKey env st).2).heap = st.heap :=
  getOrCreateSalt_heap env st

theorem deriveKey_cache (env : Env) (st : StoreState) :
    ((CredentialStore.deriveKey env st).2).cache = st.cache :=
  getOrCreateSalt_cache env st

theorem deriveKey_secretsFile (env : Env) (st : StoreState) :
    ((CredentialStore.deriveKey env st).2).secretsFile = st.secretsFile :=
  getOrCreateSalt_secretsFile env st

theorem deriveKey_stable (env : Env) (st st₂ : StoreState)
    (hr : env.urandom.length = 16)
    (h : st₂.saltFile = ((CredentialStore.deriveKey env st).2).saltFile) :
    (CredentialStore.deriveKey env st₂).1 = (CredentialStore.deriveKey env st).1 := by
  unfold CredentialStore.deriveKey
  simp [getOrCreateSalt_stable env st st₂ hr h]

theorem load_cache (env : Env) (st : StoreState) :
    ((CredentialStore.load env st).2).cache = some (CredentialStore.load env st).1 := by
  unfold CredentialStore.load
  cases hc : st.cache with
  | some r => exact hc
  | none =>
      cases hs : st.secretsFile with
      | none => simp [StoreState.allocCache]
      | some bytes =>
          cases hd : fernetDecryptJson (CredentialStore.deriveKey env st).1 bytes <;>
            simp [StoreState.allocCache, hd]

theorem load_ref_lt (env : Env) (st : StoreState) (h : st.cacheOk = true) :
    (CredentialStore.load env st).1 < ((CredentialStore.load env st).2).heap.length := by
  unfold CredentialStore.load
  cases hc : st.cache with
  | some r =>
      unfold StoreState.cacheOk at h
      rw [hc] at h
      simpa using h
  | none =>
      cases hs : st.secretsFile with
      | none => simp [StoreState.allocCache]
      | some bytes =>
          cases hd : fernetDecryptJson (CredentialStore.deriveKey env st).1 bytes <;>
            simp [StoreState.allocCache, hd, deriveKey_heap]

theorem load_secretsFile (env : Env) (st : StoreState) :
    ((CredentialStore.load env st).2).secretsFile = st.secretsFile := by
  unfold CredentialStore.load
  cases hc : st.cache with
  | some r => simp
  | none =>
      cases hs : st.secretsFile with
      | none => simp [StoreState.allocCache, hs]
      | some bytes =>
          cases hd : fernetDecryptJson (CredentialStore.deriveKey env st).1 bytes <;>
            simp [StoreState.allocCache, hd, hs, deriveKey_secretsFile]

theorem load_saltFile_of_no_secrets (env : Env) (st : StoreState)
    (h : st.secretsFile = none) :
    ((CredentialStore.load env st).2).saltFile = st.saltFile := by
  unfold CredentialStore.load
  cases hc : st.cache with
  | some r => simp
  | none => simp [h, StoreState.allocCache]

theorem heapGet_heapSet_self (st : StoreState) (r : Nat) (d : Dict)
    (h : r < st.heap.length) :
    StoreState.heapGet (StoreState.heapSet st r d) r = d := by
  simp [StoreState.heapGet, StoreState.heapSet, List.getD, List.getElem?_set_self, h]

theorem heapGet_heapSet_ne (st : StoreState) (r q : Nat) (d : Dict) (h : q ≠ r) :
    StoreState.heapGet (StoreState.heapSet st r d) q = StoreState.heapGet st q := by
  simp [StoreState.heapGet, StoreState.heapSet, List.getD,
        List.getElem?_set_ne (Ne.symm h)]

theorem heapGet_append_old (st : StoreState) (d : Dict) (r : Nat)
    (h : r < st.heap.length) :
    StoreState.heapGet { st with heap := st.heap ++ [d] } r =
      StoreState.heapGet st r := by
  simp [StoreState.heapGet, List.getD, List.getElem?_append_left h]

theorem heapGet_append_fresh (st : StoreState) (d : Dict) :
    StoreState.heapGet { st with heap := st.heap ++ [d] } st.heap.length = d := by
  simp [StoreState.heapGet, List.getD]

theorem heapGet_noDup_of_heapOk (st : StoreState) (r : Nat)
    (h : st.heapOk = true) :
    Dict.noDupKeys (StoreState.heapGet st r) = true := by
  unfold StoreState.heapGet
  by_cases hr : r < st.heap.length
  · rw [List.getD_eq_getElem st.heap [] hr]
    exact List.all_eq_true.mp h _ (st.heap.getElem_mem hr)
  · rw [List.getD_eq_default st.heap [] (Nat.le_of_not_lt hr)]
    rfl

/-- The dict object `_load` hands back always has distinct keys: every
branch produces either a cached Python dict, an empty dict, or the
`json.loads` of a genuine encrypted mapping. -/
theorem load_heapGet_noDup (env : Env) (st : StoreState)
    (hh : st.heapOk = true) (hd : st.diskOk = true) :
    Dict.noDupKeys
      (StoreState.heapGet ((CredentialStore.load env st).2)
        ((CredentialStore.load env st).1)) = true := by
  unfold CredentialStore.load
  cases hc : st.cache with
  | some r => exact heapGet_noDup_of_heapOk st r hh
  | none =>
      cases hs : st.secretsFile with
      | none =>
          simp [StoreState.allocCache, StoreState.heapGet, List.getD, Dict.noDupKeys]
      | some bytes =>
          cases hbytes : bytes with
          | token k payload =>
              unfold fernetDecryptJson
              by_cases hk : k = (CredentialStore.deriveKey env st).1
              · have hpay : Dict.noDupKeys payload = true := by
                  unfold StoreState.diskOk at hd
                  rw [hs, hbytes] at hd
                  exact hd
                simpa [hk, StoreState.allocCache, StoreState.heapGet,
                       deriveKey_heap, List.getD] using hpay
              · simp [hk, StoreState.allocCache, StoreState.heapGet,
                      deriveKey_heap, List.getD, Dict.noDupKeys]
          | garbage i =>
              simp [fernetDecryptJson, StoreState.allocCache, StoreState.heapGet,
                    deriveKey_heap, List.getD, Dict.noDupKeys]

/-- Reading via `get` on a state whose cache is populated reads the cache object
directly. -/
theorem get_of_cached (env : Env) (st : StoreState) (r : Nat) (n : String)
    (h : st.cache = some r) :
    CredentialStore.get env n st =
      (Dict.getVal (StoreState.heapGet st r) n, st) := by
  unfold CredentialStore.get CredentialStore.load
  rw [h]

/-- A successful `_save` of the dict object `r` makes a following `get`
read exactly that object. -/
theorem get_after_save (env : Env) (st : StoreState) (r : Nat) (n : String)
    (hw : env.secretsWriteOk = true) :
    (CredentialStore.save env r st).1 = PyOutcome.ok ∧
    (CredentialStore.get env n ((CredentialStore.save env r st).2)).1 =
      Dict.getVal (StoreState.heapGet st r) n := by
  unfold CredentialStore.save CredentialStore.get CredentialStore.load
  simp [hw, StoreState.heapGet, deriveKey_heap]

/-- Reading via `get` on an uncached state whose secrets file decrypts with the
derived key returns the lookup in the decrypted mapping. -/
theorem get_of_uncached_token (env : Env) (st : StoreState) (key : FernetKey)
    (d : Dict) (n : String) (hc : st.cache = none)
    (hs : st.secretsFile = some (CipherBytes.token key d))
    (hk : (CredentialStore.deriveKey env st).1 = key) :
    (CredentialStore.get env n st).1 = Dict.getVal d n := by
  unfold CredentialStore.get CredentialStore.load
  simp [hc, hs, hk, fernetDecryptJson, StoreState.allocCache,
        StoreState.heapGet, List.getD]

/-! Section: Concrete fixtures used by the witnesses -/

/-- A concrete environment in which every write succeeds. -/
def envOk : Env :=
  { etcMachineId := some "9aa302a7c58849ada18f38b3ff12a374"
  , dbusMachineId := none
  , hostname := "devbox"
  , login := some "pat"
  , envUser := none
  , envUserName := none
  , urandom := [0, 1, 2, 3, 4, 5, 6, 7, 8, 9, 10, 11, 12, 13, 14, 15]
  , secretsWriteOk := true }

/-- The same environment with the secrets-file write failing (read-only
filesystem or full disk). -/
def envFail : Env := { envOk with secretsWriteOk := false }

/-! Section: C2 -/

/-- C2: for all strings `v` and field names `n`, on any well-formed store
state, when the underlying disk write succeeds, `set(n, v)` followed by
`get(n)` returns exactly `v` (character for character — the value never
passes through any lossy encoding, and the model's strings stand for
their UTF-8 bytes). -/
theorem set_then_get_returns_value (env : Env) (st : StoreState) (n v : String)
    (hc : st.cacheOk = true) (hw : env.secretsWriteOk = true) :
    (CredentialStore.set env n v st).1 = PyOutcome.ok ∧
    (CredentialStore.get env n ((CredentialStore.set env n v st).2)).1 = some v := by
  have hrl := load_ref_lt env st hc
  have h := get_after_save env
      (StoreState.heapSet ((CredentialStore.load env st).2)
        ((CredentialStore.load env st).1)
        (Dict.setVal
          (StoreState.heapGet ((CredentialStore.load env st).2)
            ((CredentialStore.load env st).1)) n v))
      ((CredentialStore.load env st).1) n hw
  rw [heapGet_heapSet_self _ _ _ hrl, Dict.getVal_setVal_self] at h
  exact h

theorem set_then_get_returns_value_witness :
    (CredentialStore.set envOk "openai_api_key" "sk-test\n-123-π" StoreState.fresh).1
      = PyOutcome.ok ∧
    (CredentialStore.get envOk "openai_api_key"
        ((CredentialStore.set envOk "openai_api_key" "sk-test\n-123-π"
          StoreState.fresh).2)).1 = some "sk-test\n-123-π" :=
  set_then_get_returns_value envOk StoreState.fresh "openai_api_key"
    "sk-test\n-123-π" rfl rfl

/-! Section: C3 -/

/-- C3: when the secrets file holds bytes that fail decryption or JSON
decoding (garbage, tampered ciphertext, or ciphertext keyed to a
different machine or salt), `get(n)` returns absent for every `n` and
`get_all()` returns an empty mapping — both are total functions of the
model, so neither raises — and neither failed load touches the on-disk
ciphertext. -/
theorem corrupt_secrets_recovered (env : Env) (st : StoreState) (n : String)
    (b : CipherBytes) (hc : st.cache = none) (hs : st.secretsFile = some b)
    (hfail : fernetDecryptJson ((CredentialStore.deriveKey env st).1) b = none) :
    (CredentialStore.get env n st).1 = none ∧
    ((CredentialStore.get env n st).2).secretsFile = some b ∧
    StoreState.heapGet ((CredentialStore.getAll env st).2)
      ((CredentialStore.getAll env st).1) = [] ∧
    ((CredentialStore.getAll env st).2).secretsFile = some b := by
  have hload : CredentialStore.load env st =
      StoreState.allocCache ((CredentialStore.deriveKey env st).2) [] := by
    unfold CredentialStore.load
    simp [hc, hs, hfail]
  have hcopy : StoreState.heapGet ((CredentialStore.load env st).2)
      ((CredentialStore.load env st).1) = [] := by
    rw [hload]
    simp [StoreState.allocCache, StoreState.heapGet, List.getD]
  have hsec : ((CredentialStore.load env st).2).secretsFile = some b := by
    rw [load_secretsFile env st, hs]
  refine ⟨?_, ?_, ?_, ?_⟩
  · show Dict.getVal (StoreState.heapGet ((CredentialStore.load env st).2)
        ((CredentialStore.load env st).1)) n = none
    rw [hcopy]
    rfl
  · exact hsec
  · show StoreState.heapGet
        ((StoreState.alloc ((CredentialStore.load env st).2)
          (StoreState.heapGet ((CredentialStore.load env st).2)
            ((CredentialStore.load env st).1))).2)
        ((StoreState.alloc ((CredentialStore.load env st).2)
          (StoreState.heapGet ((CredentialStore.load env st).2)
            ((CredentialStore.load env st).1))).1) = []
    rw [hcopy]
    simp [StoreState.alloc, StoreState.heapGet, List.getD]
  · exact hsec

theorem corrupt_secrets_recovered_witness :
    (CredentialStore.get envOk "openai_api_key"
        { StoreState.fresh with secretsFile := some (CipherBytes.garbage 0) }).1
      = none ∧
    ((CredentialStore.get envOk "openai_api_key"
        { StoreState.fresh with secretsFile := some (CipherBytes.garbage 0) }).2).secretsFile
      = some (CipherBytes.garbage 0) ∧
    StoreState.heapGet
      ((CredentialStore.getAll envOk
        { StoreState.fresh with secretsFile := some (CipherBytes.garbage 0) }).2)
      ((CredentialStore.getAll envOk
        { StoreState.fresh with secretsFile := some (CipherBytes.garbage 0) }).1) = [] ∧
    ((CredentialStore.getAll envOk
        { StoreState.fresh with secretsFile := some (CipherBytes.garbage 0) }).2).secretsFile
      = some (CipherBytes.garbage 0) :=
  corrupt_secrets_recovered envOk
    { StoreState.fresh with secretsFile := some (CipherBytes.garbage 0) }
    "openai_api_key" (CipherBytes.garbage 0) rfl rfl rfl

/-! Section: C5 -/

/-- C5: `get_all()` hands out a defensive copy — a freshly allocated dict
object distinct from the cache object — so any insertion, update or
deletion performed on the returned mapping leaves the store state (its
files, its cache pointer, and every value a later `get` observes)
unchanged. -/
theorem getAll_defensive_copy (env : Env) (st : StoreState) (m : DictMutation)
    (n : String) (hc : st.cacheOk = true) :
    (CredentialStore.get env n
        (StoreState.mutateAt ((CredentialStore.getAll env st).2)
          ((CredentialStore.getAll env st).1) m)).1 =
      (CredentialStore.get env n ((CredentialStore.getAll env st).2)).1 ∧
    (StoreState.mutateAt ((CredentialStore.getAll env st).2)
        ((CredentialStore.getAll env st).1) m).secretsFile =
      ((CredentialStore.getAll env st).2).secretsFile ∧
    (StoreState.mutateAt ((CredentialStore.getAll env st).2)
        ((CredentialStore.getAll env st).1) m).saltFile =
      ((CredentialStore.getAll env st).2).saltFile ∧
    (StoreState.mutateAt ((CredentialStore.getAll env st).2)
        ((CredentialStore.getAll env st).1) m).cache =
      ((CredentialStore.getAll env st).2).cache := by
  have hrl := load_ref_lt env st hc
  have hcc := load_cache env st
  refine ⟨?_, rfl, rfl, rfl⟩
  have hMcache : (StoreState.mutateAt ((CredentialStore.getAll env st).2)
      ((CredentialStore.getAll env st).1) m).cache =
        some ((CredentialStore.load env st).1) := hcc
  have hA2cache : ((CredentialStore.getAll env st).2).cache =
      some ((CredentialStore.load env st).1) := hcc
  rw [get_of_cached env _ _ n hMcache, get_of_cached env _ _ n hA2cache]
  have hne : ((CredentialStore.load env st).1) ≠
      ((CredentialStore.getAll env st).1) := Nat.ne_of_lt hrl
  show (Dict.getVal
      (StoreState.heapGet
        (StoreState.heapSet ((CredentialStore.getAll env st).2)
          ((CredentialStore.getAll env st).1)
          (applyMutation
            (StoreState.heapGet ((CredentialStore.getAll env st).2)
              ((CredentialStore.getAll env st).1)) m))
        ((CredentialStore.load env st).1)) n, _).1 = _
  rw [heapGet_heapSet_ne _ _ _ _ hne]

theorem getAll_defensive_copy_witness :
    (CredentialStore.get envOk "telegram_bot_token"
        (StoreState.mutateAt
          ((CredentialStore.getAll envOk
            { heap := [[("telegram_bot_token", "tok")]], cache := some 0,
              secretsFile := none, saltFile := none }).2)
          ((CredentialStore.getAll envOk
            { heap := [[("telegram_bot_token", "tok")]], cache := some 0,
              secretsFile := none, saltFile := none }).1)
          (DictMutation.del "telegram_bot_token"))).1 =
      (CredentialStore.get envOk "telegram_bot_token"
        ((CredentialStore.getAll envOk
          { heap := [[("telegram_bot_token", "tok")]], cache := some 0,
            secretsFile := none, saltFile := none }).2)).1 :=
  (getAll_defensive_copy envOk
    { heap := [[("telegram_bot_token", "tok")]], cache := some 0,
      secretsFile := none, saltFile := none }
    (DictMutation.del "telegram_bot_token") "telegram_bot_token" rfl).1

/-! Section: C4 -/

/-- C4: `delete(n)` on an absent `n` returns normally and changes neither
the secrets file nor any value `get` observes; on a present `n` it
returns normally, makes `get(n)` absent while every other key keeps its
value, and persists through the very same `_save` call that `set`
uses. -/
theorem delete_absent_noop_present_removes (env : Env) (st : StoreState)
    (n : String) (hwf : st.wf = true) :
    ((CredentialStore.get env n st).1 = none →
        CredentialStore.delete env n st =
          (PyOutcome.ok, (CredentialStore.load env st).2) ∧
        ((CredentialStore.delete env n st).2).secretsFile = st.secretsFile ∧
        ∀ m, (CredentialStore.get env m ((CredentialStore.delete env n st).2)).1 =
              (CredentialStore.get env m st).1) ∧
    ((CredentialStore.get env n st).1 ≠ none → env.secretsWriteOk = true →
        CredentialStore.delete env n st =
          CredentialStore.save env ((CredentialStore.load env st).1)
            (StoreState.heapSet ((CredentialStore.load env st).2)
              ((CredentialStore.load env st).1)
              (Dict.delVal
                (StoreState.heapGet ((CredentialStore.load env st).2)
                  ((CredentialStore.load env st).1)) n)) ∧
        (CredentialStore.delete env n st).1 = PyOutcome.ok ∧
        (CredentialStore.get env n ((CredentialStore.delete env n st).2)).1 = none ∧
        ∀ m, m ≠ n →
          (CredentialStore.get env m ((CredentialStore.delete env n st).2)).1 =
            (CredentialStore.get env m st).1) := by
  rw [StoreState.wf, Bool.and_eq_true, Bool.and_eq_true] at hwf
  have hrl := load_ref_lt env st hwf.1.1
  have hnd := load_heapGet_noDup env st hwf.1.2 hwf.2
  constructor
  · intro habs
    have habs2 : Dict.getVal
        (StoreState.heapGet ((CredentialStore.load env st).2)
          ((CredentialStore.load env st).1)) n = none := habs
    have hhk : Dict.hasKey
        (StoreState.heapGet ((CredentialStore.load env st).2)
          ((CredentialStore.load env st).1)) n = false := by
      unfold Dict.hasKey
      rw [habs2]
      rfl
    have hdel : CredentialStore.delete env n st =
        (PyOutcome.ok, (CredentialStore.load env st).2) := by
      simp only [CredentialStore.delete, hhk]
      simp
    refine ⟨hdel, ?_, ?_⟩
    · rw [hdel]
      exact load_secretsFile env st
    · intro m
      rw [hdel]
      rw [get_of_cached env _ _ m (load_cache env st)]
      rfl
  · intro hpres hw
    have hpres2 : Dict.getVal
        (StoreState.heapGet ((CredentialStore.load env st).2)
          ((CredentialStore.load env st).1)) n ≠ none := hpres
    have hhk : Dict.hasKey
        (StoreState.heapGet ((CredentialStore.load env st).2)
          ((CredentialStore.load env st).1)) n = true := by
      unfold Dict.hasKey
      rcases h0 : Dict.getVal
          (StoreState.heapGet ((CredentialStore.load env st).2)
            ((CredentialStore.load env st).1)) n with _ | v
      · exact absurd h0 hpres2
      · rfl
    have hdel : CredentialStore.delete env n st =
        CredentialStore.save env ((CredentialStore.load env st).1)
          (StoreState.heapSet ((CredentialStore.load env st).2)
            ((CredentialStore.load env st).1)
            (Dict.delVal
              (StoreState.heapGet ((CredentialStore.load env st).2)
                ((CredentialStore.load env st).1)) n)) := by
      simp only [CredentialStore.delete, hhk]
      simp
    refine ⟨hdel, ?_, ?_, ?_⟩
    · rw [hdel]
      exact (get_after_save env _ _ n hw).1
    · rw [hdel]
      have h2 := (get_after_save env
          (StoreState.heapSet ((CredentialStore.load env st).2)
            ((CredentialStore.load env st).1)
            (Dict.delVal
              (StoreState.heapGet ((CredentialStore.load env st).2)
                ((CredentialStore.load env st).1)) n))
          ((CredentialStore.load env st).1) n hw).2
      rw [heapGet_heapSet_self _ _ _ hrl] at h2
      rw [h2, Dict.getVal_delVal_self _ _ hnd]
    · intro m hm
      rw [hdel]
      have h2 := (get_after_save env
          (StoreState.heapSet ((CredentialStore.load env st).2)
            ((CredentialStore.load env st).1)
            (Dict.delVal
              (StoreState.heapGet ((CredentialStore.load env st).2)
                ((CredentialStore.load env st).1)) n))
          ((CredentialStore.load env st).1) m hw).2
      rw [heapGet_heapSet_self _ _ _ hrl] at h2
      rw [h2, Dict.getVal_delVal_ne _ _ _ hm]
      rfl

theorem delete_absent_noop_present_removes_witness :
    (CredentialStore.delete envOk "openai_api_key"
        { heap := [[("openai_api_key", "sk-1")]], cache := some 0,
          secretsFile := none, saltFile := none }).1 = PyOutcome.ok ∧
    (CredentialStore.get envOk "openai_api_key"
        ((CredentialStore.delete envOk "openai_api_key"
          { heap := [[("openai_api_key", "sk-1")]], cache := some 0,
            secretsFile := none, saltFile := none }).2)).1 = none := by
  have h := (delete_absent_noop_present_removes envOk
      { heap := [[("openai_api_key", "sk-1")]], cache := some 0,
        secretsFile := none, saltFile := none }
      "openai_api_key" (by decide)).2 (by decide) rfl
  exact ⟨h.2.1, h.2.2.1⟩

/-! Section: C6 -/

/-- C6: a salt file of at least 16 bytes contributes exactly its first 16
bytes; a missing or short salt file causes a fresh random 16-byte salt to
be generated, written over the old contents and used. -/
theorem salt_file_spec (env : Env) (st : StoreState)
    (hr : env.urandom.length = 16) :
    (∀ s, st.saltFile = some s → 16 ≤ s.length →
        CredentialStore.getOrCreateSalt env st = (s.take 16, st)) ∧
    ((st.saltFile = none ∨ ∃ s, st.saltFile = some s ∧ s.length < 16) →
        CredentialStore.getOrCreateSalt env st =
          (env.urandom, { st with saltFile := some env.urandom }) ∧
        ((CredentialStore.getOrCreateSalt env st).1).length = 16) := by
  constructor
  · intro s hs hl
    unfold CredentialStore.getOrCreateSalt
    rw [hs]
    simp [hl]
  · intro h
    rcases h with h | ⟨s, hs, hl⟩
    · have he : CredentialStore.getOrCreateSalt env st =
          (env.urandom, { st with saltFile := some env.urandom }) := by
        unfold CredentialStore.getOrCreateSalt
        rw [h]
      exact ⟨he, by rw [he]; exact hr⟩
    · have he : CredentialStore.getOrCreateSalt env st =
          (env.urandom, { st with saltFile := some env.urandom }) := by
        unfold CredentialStore.getOrCreateSalt
        rw [hs]
        simp [Nat.not_le.mpr hl]
      exact ⟨he, by rw [he]; exact hr⟩

theorem salt_file_spec_witness :
    envOk.urandom.length = 16 ∧
    (CredentialStore.getOrCreateSalt envOk
        { StoreState.fresh with saltFile := some [1, 2, 3] } =
      (envOk.urandom,
       { { StoreState.fresh with saltFile := some [1, 2, 3] } with
           saltFile := some envOk.urandom }) ∧
     ((CredentialStore.getOrCreateSalt envOk
        { StoreState.fresh with saltFile := some [1, 2, 3] }).1).length = 16) :=
  ⟨rfl,
   (salt_file_spec envOk { StoreState.fresh with saltFile := some [1, 2, 3] }
      rfl).2 (Or.inr ⟨[1, 2, 3], rfl, by decide⟩)⟩

/-! Section: C7 -/

def RawKey.iterations : RawKey → Nat
  | RawKey.pbkdf2HmacSha256 _ iters _ _ => iters

def RawKey.outLength : RawKey → Nat
  | RawKey.pbkdf2HmacSha256 len _ _ _ => len

def FernetKey.rawKey : FernetKey → RawKey
  | FernetKey.b64url raw => raw

/-- C7: the key every encrypt and decrypt uses is the base64-url encoding
of a 32-byte PBKDF2-HMAC-SHA256 derivation with 480000 (hence at least
480000) iterations over the machine identity with the persisted salt;
the machine identity is the machine id (machine-id files, falling back to
the hostname) joined with a pipe to the login/user identifier; and a
successful `_save` stores a token encrypted under exactly this key. -/
theorem derive_key_spec (env : Env) (st : StoreState) (r : Nat) :
    (CredentialStore.deriveKey env st).1 =
      FernetKey.b64url (RawKey.pbkdf2HmacSha256 32 480000
        ((CredentialStore.getOrCreateSalt env st).1)
        (CredentialStore.getMachineIdentity env)) ∧
    RawKey.iterations (FernetKey.rawKey ((CredentialStore.deriveKey env st).1))
      ≥ 480000 ∧
    RawKey.outLength (FernetKey.rawKey ((CredentialStore.deriveKey env st).1))
      = 32 ∧
    CredentialStore.getMachineIdentity env =
      CredentialStore.getMachineId env ++ "|" ++ CredentialStore.userIdent env ∧
    (machineIdCandidate env.etcMachineId = none →
      machineIdCandidate env.dbusMachineId = none →
      CredentialStore.getMachineId env = env.hostname) ∧
    (env.secretsWriteOk = true →
      ((CredentialStore.save env r st).2).secretsFile =
        some (CipherBytes.token ((CredentialStore.deriveKey env st).1)
          (StoreState.heapGet st r))) := by
  refine ⟨rfl, ?_, rfl, ?_, ?_, ?_⟩
  · exact Nat.le_refl 480000
  · unfold CredentialStore.getMachineIdentity
    rw [String.intercalate]
    rw [String.intercalate.go]
    rw [String.intercalate.go]
  · intro h1 h2
    unfold CredentialStore.getMachineId
    rw [h1, h2]
  · intro hw
    simp [CredentialStore.save, hw, StoreState.heapGet, deriveKey_heap]

theorem derive_key_spec_witness :
    (CredentialStore.deriveKey envOk StoreState.fresh).1 =
      FernetKey.b64url (RawKey.pbkdf2HmacSha256 32 480000
        ((CredentialStore.getOrCreateSalt envOk StoreState.fresh).1)
        (CredentialStore.getMachineIdentity envOk)) ∧
    ((CredentialStore.save envOk 0 StoreState.fresh).2).secretsFile =
      some (CipherBytes.token ((CredentialStore.deriveKey envOk StoreState.fresh).1)
        (StoreState.heapGet StoreState.fresh 0)) :=
  ⟨(derive_key_spec envOk StoreState.fresh 0).1,
   (derive_key_spec envOk StoreState.fresh 0).2.2.2.2.2 rfl⟩

/-! Section: C9 -/

/-- C9: on a store whose cache is unpopulated and whose secrets and salt
files are both absent, `get`, `get_all` and `delete` leave both files
absent — nothing is written — while the first `set` creates both files
(its construction touches no file at all, as `StoreState.fresh` records
the post-`__init__` state verbatim). -/
theorem readonly_ops_create_no_files (env : Env) (st : StoreState)
    (n v : String) (hcache : st.cache = none) (hsec : st.secretsFile = none)
    (hsalt : st.saltFile = none) :
    ((CredentialStore.get env n st).2).secretsFile = none ∧
    ((CredentialStore.get env n st).2).saltFile = none ∧
    ((CredentialStore.getAll env st).2).secretsFile = none ∧
    ((CredentialStore.getAll env st).2).saltFile = none ∧
    (CredentialStore.delete env n st).1 = PyOutcome.ok ∧
    ((CredentialStore.delete env n st).2).secretsFile = none ∧
    ((CredentialStore.delete env n st).2).saltFile = none ∧
    (env.secretsWriteOk = true →
      ((CredentialStore.set env n v st).2).secretsFile ≠ none ∧
      ((CredentialStore.set env n v st).2).saltFile ≠ none) := by
  have hload : CredentialStore.load env st = StoreState.allocCache st [] := by
    unfold CredentialStore.load
    simp [hcache, hsec]
  have hcopy : StoreState.heapGet ((CredentialStore.load env st).2)
      ((CredentialStore.load env st).1) = [] := by
    rw [hload]
    simp [StoreState.allocCache, StoreState.heapGet, List.getD]
  have hhk : Dict.hasKey
      (StoreState.heapGet ((CredentialStore.load env st).2)
        ((CredentialStore.load env st).1)) n = false := by
    rw [hcopy]
    rfl
  have hdel : CredentialStore.delete env n st =
      (PyOutcome.ok, (CredentialStore.load env st).2) := by
    simp only [CredentialStore.delete, hhk]
    simp
  refine ⟨?_, ?_, ?_, ?_, ?_, ?_, ?_, ?_⟩
  · show ((CredentialStore.load env st).2).secretsFile = none
    rw [hload]
    exact hsec
  · show ((CredentialStore.load env st).2).saltFile = none
    rw [hload]
    exact hsalt
  · show ((CredentialStore.load env st).2).secretsFile = none
    rw [hload]
    exact hsec
  · show ((CredentialStore.load env st).2).saltFile = none
    rw [hload]
    exact hsalt
  · rw [hdel]
  · rw [hdel]
    show ((CredentialStore.load env st).2).secretsFile = none
    rw [hload]
    exact hsec
  · rw [hdel]
    show ((CredentialStore.load env st).2).saltFile = none
    rw [hload]
    exact hsalt
  · intro hw
    constructor
    · show ((CredentialStore.save env ((CredentialStore.load env st).1) _).2).secretsFile ≠ none
      simp [CredentialStore.save, hw]
    · show ((CredentialStore.save env ((CredentialStore.load env st).1) _).2).saltFile ≠ none
      simp only [CredentialStore.save, hw]
      simp [CredentialStore.deriveKey, CredentialStore.getOrCreateSalt,
            StoreState.heapSet, hload, StoreState.allocCache, hsalt]

theorem readonly_ops_create_no_files_witness :
    ((CredentialStore.get envOk "openai_api_key" StoreState.fresh).2).secretsFile
      = none ∧
    ((CredentialStore.set envOk "openai_api_key" "sk-test-123"
        StoreState.fresh).2).saltFile ≠ none :=
  ⟨(readonly_ops_create_no_files envOk StoreState.fresh "openai_api_key"
      "sk-test-123" rfl rfl rfl).1,
   ((readonly_ops_create_no_files envOk StoreState.fresh "openai_api_key"
      "sk-test-123" rfl rfl rfl).2.2.2.2.2.2.2 rfl).2⟩

/-! Section: C8 -/

/-- C8: on a fresh store whose secrets file is absent, the load yields an
empty mapping rather than an error, so `get(n)` is absent; a `set(n, v)`
then makes `get(n)` return `v`, and a following `delete(n)` makes it
absent again; with the disk write succeeding, every step returns
normally (and `get` is total by construction). -/
theorem fresh_store_end_to_end (env : Env) (n v : String)
    (hw : env.secretsWriteOk = true) :
    (CredentialStore.get env n StoreState.fresh).1 = none ∧
    (CredentialStore.set env n v
        ((CredentialStore.get env n StoreState.fresh).2)).1 = PyOutcome.ok ∧
    (CredentialStore.get env n
        ((CredentialStore.set env n v
          ((CredentialStore.get env n StoreState.fresh).2)).2)).1 = some v ∧
    (CredentialStore.delete env n
        ((CredentialStore.set env n v
          ((CredentialStore.get env n StoreState.fresh).2)).2)).1 = PyOutcome.ok ∧
    (CredentialStore.get env n
        ((CredentialStore.delete env n
          ((CredentialStore.set env n v
            ((CredentialStore.get env n StoreState.fresh).2)).2)).2)).1 = none := by
  simp [CredentialStore.get, CredentialStore.set, CredentialStore.delete,
        CredentialStore.load, CredentialStore.save, CredentialStore.deriveKey,
        CredentialStore.getOrCreateSalt, StoreState.fresh, StoreState.allocCache,
        StoreState.heapGet, StoreState.heapSet, Dict.setVal, Dict.getVal,
        Dict.delVal, Dict.hasKey, hw, List.getD]
  split <;> rfl

theorem fresh_store_end_to_end_witness :
    (CredentialStore.get envOk "openai_api_key" StoreState.fresh).1 = none ∧
    (CredentialStore.set envOk "openai_api_key" "sk-test-123"
        ((CredentialStore.get envOk "openai_api_key" StoreState.fresh).2)).1
      = PyOutcome.ok ∧
    (CredentialStore.get envOk "openai_api_key"
        ((CredentialStore.set envOk "openai_api_key" "sk-test-123"
          ((CredentialStore.get envOk "openai_api_key" StoreState.fresh).2)).2)).1
      = some "sk-test-123" ∧
    (CredentialStore.delete envOk "openai_api_key"
        ((CredentialStore.set envOk "openai_api_key" "sk-test-123"
          ((CredentialStore.get envOk "openai_api_key" StoreState.fresh).2)).2)).1
      = PyOutcome.ok ∧
    (CredentialStore.get envOk "openai_api_key"
        ((CredentialStore.delete envOk "openai_api_key"
          ((CredentialStore.set envOk "openai_api_key" "sk-test-123"
            ((CredentialStore.get envOk "openai_api_key" StoreState.fresh).2)).2)).2)).1
      = none :=
  fresh_store_end_to_end envOk "openai_api_key" "sk-test-123" rfl

/-! Section: C10 -/

/-- C10: after a successful `set(n, v)` followed by `clear_cache()`, the
next `get(n)` goes back to disk, re-derives the key from the unchanged
salt file and machine identity, decrypts the stored token and returns
`v` — decryption with the same derived key inverts encryption. -/
theorem persist_roundtrip (env : Env) (st : StoreState) (n v : String)
    (hc : st.cacheOk = true) (hw : env.secretsWriteOk = true)
    (hr : env.urandom.length = 16) :
    (CredentialStore.set env n v st).1 = PyOutcome.ok ∧
    (CredentialStore.get env n
        (CredentialStore.clearCache ((CredentialStore.set env n v st).2))).1
      = some v := by
  have hrl := load_ref_lt env st hc
  rcases hp : CredentialStore.load env st with ⟨r, st₁⟩
  have hrl2 : r < st₁.heap.length := by
    rw [hp] at hrl
    exact hrl
  have hset : CredentialStore.set env n v st =
      CredentialStore.save env r
        (StoreState.heapSet st₁ r
          (Dict.setVal (StoreState.heapGet st₁ r) n v)) := by
    unfold CredentialStore.set
    rw [hp]
  set dv := Dict.setVal (StoreState.heapGet st₁ r) n v with hdv
  rcases hq : CredentialStore.deriveKey env (StoreState.heapSet st₁ r dv)
    with ⟨key, st₂d⟩
  have hsave : CredentialStore.save env r (StoreState.heapSet st₁ r dv) =
      (PyOutcome.ok,
       { st₂d with
           secretsFile := some (CipherBytes.token key (StoreState.heapGet st₂d r)),
           cache := some r }) := by
    unfold CredentialStore.save
    rw [hq]
    simp [hw]
  have hheap : st₂d.heap = (StoreState.heapSet st₁ r dv).heap := by
    have h := deriveKey_heap env (StoreState.heapSet st₁ r dv)
    rw [hq] at h
    exact h
  have hd2 : StoreState.heapGet st₂d r = dv := by
    have h1 : StoreState.heapGet st₂d r =
        StoreState.heapGet (StoreState.heapSet st₁ r dv) r := by
      unfold StoreState.heapGet
      rw [hheap]
    rw [h1]
    exact heapGet_heapSet_self st₁ r dv hrl2
  have hkey : (CredentialStore.deriveKey env
      (CredentialStore.clearCache
        { st₂d with
            secretsFile := some (CipherBytes.token key (StoreState.heapGet st₂d r)),
            cache := some r })).1 = key := by
    have hsalt : (CredentialStore.clearCache
        { st₂d with
            secretsFile := some (CipherBytes.token key (StoreState.heapGet st₂d r)),
            cache := some r }).saltFile =
          ((CredentialStore.deriveKey env (StoreState.heapSet st₁ r dv)).2).saltFile := by
      rw [hq]
      rfl
    have h := deriveKey_stable env (StoreState.heapSet st₁ r dv) _ hr hsalt
    rw [hq] at h
    exact h
  constructor
  · rw [hset, hsave]
  · rw [hset, hsave]
    have hg := get_of_uncached_token env
        (CredentialStore.clearCache
          { st₂d with
              secretsFile := some (CipherBytes.token key (StoreState.heapGet st₂d r)),
              cache := some r })
        key (StoreState.heapGet st₂d r) n rfl rfl hkey
    have hgoal : (CredentialStore.get env n
        (CredentialStore.clearCache
          { st₂d with
              secretsFile := some (CipherBytes.token key (StoreState.heapGet st₂d r)),
              cache := some r })).1 = some v := by
      rw [hg, hd2, hdv]
      exact Dict.getVal_setVal_self _ n v
    exact hgoal

theorem persist_roundtrip_witness :
    (CredentialStore.set envOk "openai_api_key" "sk-test-123"
        StoreState.fresh).1 = PyOutcome.ok ∧
    (CredentialStore.get envOk "openai_api_key"
        (CredentialStore.clearCache
          ((CredentialStore.set envOk "openai_api_key" "sk-test-123"
            StoreState.fresh).2))).1 = some "sk-test-123" :=
  persist_roundtrip envOk StoreState.fresh "openai_api_key" "sk-test-123"
    rfl rfl rfl

/-! Section: C1 -/

/-- C1: the code violates this claim.  `_load` returns `self._cache`
itself (not a copy), and `set` runs `data[name] = value` — and `delete`
runs `del data[name]` — on that very object before `_save` is called, so
when the disk write fails the cache already holds the new mapping even
though `self._cache = data` never ran.  This contradicts the docstring
of `_save` ("The in-memory cache is updated after a successful write").
Concretely: after a successful `set("openai_api_key", "old")`, a
`set("openai_api_key", "new")` whose underlying write fails raises, yet
the following `get("openai_api_key")` returns `"new"` instead of the
pre-call `"old"`; a `delete("openai_api_key")` whose write fails raises,
yet the following `get` returns absent instead of `"old"`. -/
theorem failed_write_mutates_cache_bug :
    (CredentialStore.get envOk "openai_api_key"
        ((CredentialStore.set envOk "openai_api_key" "old" StoreState.fresh).2)).1
      = some "old" ∧
    (CredentialStore.set envFail "openai_api_key" "new"
        ((CredentialStore.set envOk "openai_api_key" "old" StoreState.fresh).2)).1
      = PyOutcome.raised ∧
    (CredentialStore.get envFail "openai_api_key"
        ((CredentialStore.set envFail "openai_api_key" "new"
          ((CredentialStore.set envOk "openai_api_key" "old" StoreState.fresh).2)).2)).1
      = some "new" ∧
    some "new" ≠ some "old" ∧
    (CredentialStore.delete envFail "openai_api_key"
        ((CredentialStore.set envOk "openai_api_key" "old" StoreState.fresh).2)).1
      = PyOutcome.raised ∧
    (CredentialStore.get envFail "openai_api_key"
        ((CredentialStore.delete envFail "openai_api_key"
          ((CredentialStore.set envOk "openai_api_key" "old" StoreState.fresh).2)).2)).1
      = none := by decide
